import Mathlib

/-!
Shallow embedding of `route_planner.py` (class `RouteOptimizer`) and proofs
about it.

Modelling conventions:
* Python dicts that are only read by key (`geocode_cache`, the `results`
  map of `geocode_addresses`, the `geocoded` mapping) are modelled as
  functions `String → Option GeocodeResult`.
* Latitude/longitude values are never used arithmetically by the code:
  they are read from the geocoding response and passed through verbatim
  into the route request and into the `f"{lat},{lng}"` URL fragments.
  They are therefore modelled as opaque decimal renderings (`String`).
* The network is modelled as oracles: a geocoding oracle
  `String → GeoOutcome` (first candidate of the candidate list, empty
  candidate list, or a transport/parsing exception) and a routes oracle
  `RouteRequest → RoutesResponse`.
* Python exceptions that escape `optimize_route` / `_process_route` are
  modelled with `Except String`.
* Python `//` on integers is floor division, i.e. `Int.fdiv`. Float
  values are modelled by the exact rational value of the binary64 double:
  `m / 1000` is the nearest double (`nearestDouble`) and `round(x, 2)` is
  CPython's correctly-rounded two-decimal rounding of the double's exact
  value, read back as a double (`round2`).
-/

instance {ε α : Type} [DecidableEq ε] [DecidableEq α] : DecidableEq (Except ε α) :=
  fun a b =>
    match a, b with
    | .error e, .error f => decidable_of_iff (e = f) ⟨fun h => by rw [h], fun h => by injection h⟩
    | .error _, .ok _ => isFalse (fun h => by injection h)
    | .ok _, .error _ => isFalse (fun h => by injection h)
    | .ok a, .ok b => decidable_of_iff (a = b) ⟨fun h => by rw [h], fun h => by injection h⟩

/-- Result of a successful geocoding of one address
(`lat`/`lng`/`place_id`/`formatted_address` extracted from the first
candidate, `route_planner.py` lines 62-71). -/
structure GeocodeResult where
  lat : String
  lng : String
  place_id : String
  formatted_address : String
deriving DecidableEq

/-- Outcome of one call of the external geocoding service for one address:
a first candidate, an empty candidate list (`if not geocode_result`), or a
transport/parsing exception. -/
inductive GeoOutcome where
  | success (r : GeocodeResult)
  | empty
  | error
deriving DecidableEq

/-- Pointwise update of a string-keyed mapping (`d[k] = v` on a Python dict). -/
def upd (f : String → Option GeocodeResult) (a : String) (r : GeocodeResult) :
    String → Option GeocodeResult :=
  fun x => if x = a then some r else f x

/-- State threaded through `geocode_addresses`: the instance-level
`self.geocode_cache`, the per-call `results` dict, and the list of
addresses for which the network was actually invoked (in order). -/
structure GeoState where
  cache : String → Option GeocodeResult
  results : String → Option GeocodeResult
  calls : List String

/-- One iteration of the loop of `RouteOptimizer.geocode_addresses`
(lines 44-82): a cache hit copies the cached value into `results` with no
network call; on a miss the geocoding service is called, and only a
successful outcome is stored (in the cache and in `results`). -/
def geocodeStep (oracle : String → GeoOutcome) (s : GeoState) (address : String) :
    GeoState :=
  match s.cache address with
  | some r => { s with results := upd s.results address r }
  | none =>
    match oracle address with
    | .success r =>
        { cache := upd s.cache address r
          results := upd s.results address r
          calls := s.calls ++ [address] }
    | .empty => { s with calls := s.calls ++ [address] }
    | .error => { s with calls := s.calls ++ [address] }

/-- The loop of `geocode_addresses`, folded from an arbitrary state. -/
def geocodeRun (oracle : String → GeoOutcome) (s : GeoState) (addresses : List String) :
    GeoState :=
  addresses.foldl (geocodeStep oracle) s

/-- `RouteOptimizer.geocode_addresses` (lines 33-85): starts from the
instance cache `cache₀`, an empty `results` dict, and no network calls made. -/
def geocode_addresses (oracle : String → GeoOutcome)
    (cache₀ : String → Option GeocodeResult) (addresses : List String) : GeoState :=
  geocodeRun oracle { cache := cache₀, results := fun _ => none, calls := [] } addresses

-- Equation lemmas for one geocoding step.

theorem geocodeStep_hit (oracle : String → GeoOutcome) (s : GeoState) (b : String)
    (r' : GeocodeResult) (h : s.cache b = some r') :
    geocodeStep oracle s b = { s with results := upd s.results b r' } := by
  unfold geocodeStep; rw [h]

theorem geocodeStep_success (oracle : String → GeoOutcome) (s : GeoState) (b : String)
    (r' : GeocodeResult) (h : s.cache b = none) (ho : oracle b = .success r') :
    geocodeStep oracle s b =
      { cache := upd s.cache b r', results := upd s.results b r', calls := s.calls ++ [b] } := by
  unfold geocodeStep; rw [h, ho]

theorem geocodeStep_empty (oracle : String → GeoOutcome) (s : GeoState) (b : String)
    (h : s.cache b = none) (ho : oracle b = .empty) :
    geocodeStep oracle s b = { s with calls := s.calls ++ [b] } := by
  unfold geocodeStep; rw [h, ho]

theorem geocodeStep_err (oracle : String → GeoOutcome) (s : GeoState) (b : String)
    (h : s.cache b = none) (ho : oracle b = .error) :
    geocodeStep oracle s b = { s with calls := s.calls ++ [b] } := by
  unfold geocodeStep; rw [h, ho]

theorem geocodeRun_cons (oracle : String → GeoOutcome) (s : GeoState) (b : String)
    (l : List String) :
    geocodeRun oracle s (b :: l) = geocodeRun oracle (geocodeStep oracle s b) l := rfl

theorem geocodeRun_nil (oracle : String → GeoOutcome) (s : GeoState) :
    geocodeRun oracle s [] = s := rfl

theorem geocodeStep_cache_some (oracle : String → GeoOutcome) (s : GeoState)
    (b a : String) (r : GeocodeResult) (h : s.cache a = some r) :
    (geocodeStep oracle s b).cache a = some r := by
  cases hc : s.cache b with
  | some r' => rw [geocodeStep_hit oracle s b r' hc]; exact h
  | none =>
    cases ho : oracle b with
    | success r' =>
      rw [geocodeStep_success oracle s b r' hc ho]
      have hab : a ≠ b := by intro hab; rw [hab, hc] at h; cases h
      simpa [upd, hab] using h
    | empty => rw [geocodeStep_empty oracle s b hc ho]; exact h
    | error => rw [geocodeStep_err oracle s b hc ho]; exact h

theorem geocodeRun_cache_some (oracle : String → GeoOutcome) (l : List String)
    (s : GeoState) (a : String) (r : GeocodeResult) (h : s.cache a = some r) :
    (geocodeRun oracle s l).cache a = some r := by
  induction l generalizing s with
  | nil => exact h
  | cons b l ih =>
    rw [geocodeRun_cons]
    exact ih _ (geocodeStep_cache_some oracle s b a r h)

theorem geocodeStep_calls_of_cache_some (oracle : String → GeoOutcome) (s : GeoState)
    (b a : String) (r : GeocodeResult) (h : s.cache a = some r) :
    (a ∈ (geocodeStep oracle s b).calls ↔ a ∈ s.calls) := by
  cases hc : s.cache b with
  | some r' => rw [geocodeStep_hit oracle s b r' hc]
  | none =>
    have hab : a ≠ b := by intro hab; rw [hab, hc] at h; cases h
    cases ho : oracle b with
    | success r' => rw [geocodeStep_success oracle s b r' hc ho]; simp [hab]
    | empty => rw [geocodeStep_empty oracle s b hc ho]; simp [hab]
    | error => rw [geocodeStep_err oracle s b hc ho]; simp [hab]

theorem geocodeRun_calls_of_cache_some (oracle : String → GeoOutcome) (l : List String)
    (s : GeoState) (a : String) (r : GeocodeResult) (h : s.cache a = some r) :
    (a ∈ (geocodeRun oracle s l).calls ↔ a ∈ s.calls) := by
  induction l generalizing s with
  | nil => exact Iff.rfl
  | cons b l ih =>
    rw [geocodeRun_cons]
    exact (ih _ (geocodeStep_cache_some oracle s b a r h)).trans
      (geocodeStep_calls_of_cache_some oracle s b a r h)

theorem geocodeStep_resInv (oracle : String → GeoOutcome) (s : GeoState)
    (b a : String) (r : GeocodeResult)
    (h : s.cache a = some r ∧ s.results a = some r) :
    (geocodeStep oracle s b).cache a = some r ∧
      (geocodeStep oracle s b).results a = some r := by
  obtain ⟨hc, hr⟩ := h
  refine ⟨geocodeStep_cache_some oracle s b a r hc, ?_⟩
  cases hcb : s.cache b with
  | some r' =>
    rw [geocodeStep_hit oracle s b r' hcb]
    by_cases hab : a = b
    · subst hab; rw [hc] at hcb; cases hcb; simp [upd]
    · simpa [upd, hab] using hr
  | none =>
    have hab : a ≠ b := by intro hab; rw [hab, hcb] at hc; cases hc
    cases ho : oracle b with
    | success r' =>
      rw [geocodeStep_success oracle s b r' hcb ho]
      simpa [upd, hab] using hr
    | empty => rw [geocodeStep_empty oracle s b hcb ho]; exact hr
    | error => rw [geocodeStep_err oracle s b hcb ho]; exact hr

theorem geocodeRun_resInv (oracle : String → GeoOutcome) (l : List String)
    (s : GeoState) (a : String) (r : GeocodeResult)
    (h : s.cache a = some r ∧ s.results a = some r) :
    (geocodeRun oracle s l).cache a = some r ∧
      (geocodeRun oracle s l).results a = some r := by
  induction l generalizing s with
  | nil => exact h
  | cons b l ih =>
    rw [geocodeRun_cons]
    exact ih _ (geocodeStep_resInv oracle s b a r h)

theorem geocodeRun_results_of_cached (oracle : String → GeoOutcome) (l : List String)
    (s : GeoState) (a : String) (r : GeocodeResult)
    (h : s.cache a = some r) (hmem : a ∈ l) :
    (geocodeRun oracle s l).results a = some r := by
  induction l generalizing s with
  | nil => cases hmem
  | cons b l ih =>
    rw [geocodeRun_cons]
    by_cases hab : a = b
    · subst hab
      have hstep : (geocodeStep oracle s a).cache a = some r ∧
          (geocodeStep oracle s a).results a = some r := by
        refine ⟨geocodeStep_cache_some oracle s a a r h, ?_⟩
        rw [geocodeStep_hit oracle s a r h]
        simp [upd]
      exact (geocodeRun_resInv oracle l _ a r hstep).2
    · have hmem' : a ∈ l := by
        cases hmem with
        | head => exact absurd rfl hab
        | tail _ h' => exact h'
      exact ih _ (geocodeStep_cache_some oracle s b a r h) hmem'

theorem geocodeStep_hinv (oracle : String → GeoOutcome) (s : GeoState)
    (b a : String) (r : GeocodeResult)
    (hinv : s.results a = some r → s.cache a = some r)
    (hres : (geocodeStep oracle s b).results a = some r) :
    (geocodeStep oracle s b).cache a = some r := by
  cases hcb : s.cache b with
  | some r' =>
    rw [geocodeStep_hit oracle s b r' hcb] at hres ⊢
    by_cases hab : a = b
    · subst hab
      simp only [upd, if_pos rfl] at hres
      cases hres
      exact hcb
    · simp only [upd, if_neg hab] at hres
      exact hinv hres
  | none =>
    cases ho : oracle b with
    | success r' =>
      rw [geocodeStep_success oracle s b r' hcb ho] at hres ⊢
      by_cases hab : a = b
      · subst hab
        simp only [upd, if_pos rfl] at hres ⊢
        exact hres
      · simp only [upd, if_neg hab] at hres ⊢
        exact hinv hres
    | empty =>
      rw [geocodeStep_empty oracle s b hcb ho] at hres ⊢
      exact hinv hres
    | error =>
      rw [geocodeStep_err oracle s b hcb ho] at hres ⊢
      exact hinv hres

/-- In any run, an entry of the `results` dict always comes with the same
entry in the cache (results are copied from the cache on a hit and stored
into the cache on a success). -/
theorem geocodeRun_results_le_cache (oracle : String → GeoOutcome) (l : List String)
    (s : GeoState) (a : String) (r : GeocodeResult)
    (hinv : s.results a = some r → s.cache a = some r)
    (h : (geocodeRun oracle s l).results a = some r) :
    (geocodeRun oracle s l).cache a = some r := by
  induction l generalizing s with
  | nil => exact hinv h
  | cons b l ih =>
    rw [geocodeRun_cons] at h ⊢
    exact ih _ (geocodeStep_hinv oracle s b a r hinv) h

theorem geocodeStep_calls_mono (oracle : String → GeoOutcome) (s : GeoState)
    (b x : String) (h : x ∈ s.calls) : x ∈ (geocodeStep oracle s b).calls := by
  cases hcb : s.cache b with
  | some r' => rw [geocodeStep_hit oracle s b r' hcb]; exact h
  | none =>
    cases ho : oracle b with
    | success r' =>
      rw [geocodeStep_success oracle s b r' hcb ho]
      exact List.mem_append_left _ h
    | empty =>
      rw [geocodeStep_empty oracle s b hcb ho]
      exact List.mem_append_left _ h
    | error =>
      rw [geocodeStep_err oracle s b hcb ho]
      exact List.mem_append_left _ h

theorem geocodeRun_calls_mono (oracle : String → GeoOutcome) (l : List String)
    (s : GeoState) (x : String) (h : x ∈ s.calls) :
    x ∈ (geocodeRun oracle s l).calls := by
  induction l generalizing s with
  | nil => exact h
  | cons b l ih =>
    rw [geocodeRun_cons]
    exact ih _ (geocodeStep_calls_mono oracle s b x h)

theorem geocodeStep_cache_none (oracle : String → GeoOutcome) (s : GeoState)
    (b a : String) (hab : a ≠ b) (h : s.cache a = none) :
    (geocodeStep oracle s b).cache a = none := by
  cases hcb : s.cache b with
  | some r' => rw [geocodeStep_hit oracle s b r' hcb]; exact h
  | none =>
    cases ho : oracle b with
    | success r' =>
      rw [geocodeStep_success oracle s b r' hcb ho]
      simpa [upd, hab] using h
    | empty => rw [geocodeStep_empty oracle s b hcb ho]; exact h
    | error => rw [geocodeStep_err oracle s b hcb ho]; exact h

/-- An address that is not in the cache when it is reached in the loop is
always sent to the network (whatever the outcome of that call is). -/
theorem geocodeRun_fresh_call (oracle : String → GeoOutcome) (l : List String)
    (s : GeoState) (a : String) (h : s.cache a = none) (hmem : a ∈ l) :
    a ∈ (geocodeRun oracle s l).calls := by
  induction l generalizing s with
  | nil => cases hmem
  | cons b l ih =>
    rw [geocodeRun_cons]
    by_cases hab : a = b
    · subst hab
      refine geocodeRun_calls_mono oracle l _ a ?_
      cases ho : oracle a with
      | success r' =>
        rw [geocodeStep_success oracle s a r' h ho]
        exact List.mem_append_right _ (List.mem_singleton.mpr rfl)
      | empty =>
        rw [geocodeStep_empty oracle s a h ho]
        exact List.mem_append_right _ (List.mem_singleton.mpr rfl)
      | error =>
        rw [geocodeStep_err oracle s a h ho]
        exact List.mem_append_right _ (List.mem_singleton.mpr rfl)
    · have hmem' : a ∈ l := by
        cases hmem with
        | head => exact absurd rfl hab
        | tail _ h' => exact h'
      exact ih _ (geocodeStep_cache_none oracle s b a hab h) hmem'

theorem geocodeStep_fail_inv (oracle : String → GeoOutcome) (s : GeoState)
    (b a : String) (hfail : oracle a = .empty ∨ oracle a = .error)
    (h : s.cache a = none ∧ s.results a = none) :
    (geocodeStep oracle s b).cache a = none ∧
      (geocodeStep oracle s b).results a = none := by
  obtain ⟨hc, hr⟩ := h
  by_cases hab : a = b
  · subst hab
    cases ho : oracle a with
    | success r' =>
      cases hfail with
      | inl h' => rw [ho] at h'; cases h'
      | inr h' => rw [ho] at h'; cases h'
    | empty => rw [geocodeStep_empty oracle s a hc ho]; exact ⟨hc, hr⟩
    | error => rw [geocodeStep_err oracle s a hc ho]; exact ⟨hc, hr⟩
  · refine ⟨geocodeStep_cache_none oracle s b a hab hc, ?_⟩
    cases hcb : s.cache b with
    | some r' =>
      rw [geocodeStep_hit oracle s b r' hcb]
      simpa [upd, hab] using hr
    | none =>
      cases ho : oracle b with
      | success r' =>
        rw [geocodeStep_success oracle s b r' hcb ho]
        simpa [upd, hab] using hr
      | empty => rw [geocodeStep_empty oracle s b hcb ho]; exact hr
      | error => rw [geocodeStep_err oracle s b hcb ho]; exact hr

theorem geocodeRun_fail_inv (oracle : String → GeoOutcome) (l : List String)
    (s : GeoState) (a : String) (hfail : oracle a = .empty ∨ oracle a = .error)
    (h : s.cache a = none ∧ s.results a = none) :
    (geocodeRun oracle s l).cache a = none ∧
      (geocodeRun oracle s l).results a = none := by
  induction l generalizing s with
  | nil => exact h
  | cons b l ih =>
    rw [geocodeRun_cons]
    exact ih _ (geocodeStep_fail_inv oracle s b a hfail h)

/-- C4: an address string resolved successfully by an earlier
`geocode_addresses` call of the same optimizer instance is cached; any
later `geocode_addresses` call of that instance performs no network call
for it and returns the same stored `GeocodeResult`, so the address is
geocoded over the network at most once per instance lifetime. -/
theorem cache_hit_skips_network (oracle : String → GeoOutcome)
    (cache₀ : String → Option GeocodeResult) (l₁ l₂ : List String)
    (a : String) (r : GeocodeResult)
    (h : (geocode_addresses oracle cache₀ l₁).results a = some r) :
    (geocode_addresses oracle cache₀ l₁).cache a = some r ∧
      a ∉ (geocode_addresses oracle (geocode_addresses oracle cache₀ l₁).cache l₂).calls ∧
      (a ∈ l₂ →
        (geocode_addresses oracle (geocode_addresses oracle cache₀ l₁).cache l₂).results a
          = some r) := by
  have hcache : (geocode_addresses oracle cache₀ l₁).cache a = some r := by
    refine geocodeRun_results_le_cache oracle l₁ _ a r ?_ h
    intro hres
    cases hres
  refine ⟨hcache, ?_, ?_⟩
  · intro hmem
    have := (geocodeRun_calls_of_cache_some oracle l₂
      { cache := (geocode_addresses oracle cache₀ l₁).cache
        results := fun _ => none, calls := [] } a r hcache).mp hmem
    exact absurd this (List.not_mem_nil a)
  · intro hmem
    exact geocodeRun_results_of_cached oracle l₂ _ a r hcache hmem

/-- Concrete geocode result used by witnesses. -/
def rWit : GeocodeResult := ⟨"47.61", "-122.20", "pid1", "Bellevue, WA, USA"⟩

/-- Geocoding oracle used by witnesses: every address resolves. -/
def oracleOk : String → GeoOutcome := fun _ => .success rWit

theorem cache_hit_skips_network_witness :
    (geocode_addresses oracleOk (fun _ => none) ["Bellevue, WA"]).results "Bellevue, WA"
      = some rWit ∧
    ((geocode_addresses oracleOk (fun _ => none) ["Bellevue, WA"]).cache "Bellevue, WA"
        = some rWit ∧
      "Bellevue, WA" ∉ (geocode_addresses oracleOk
        (geocode_addresses oracleOk (fun _ => none) ["Bellevue, WA"]).cache
        ["Bellevue, WA", "Redmond, WA"]).calls ∧
      ("Bellevue, WA" ∈ ["Bellevue, WA", "Redmond, WA"] →
        (geocode_addresses oracleOk
          (geocode_addresses oracleOk (fun _ => none) ["Bellevue, WA"]).cache
          ["Bellevue, WA", "Redmond, WA"]).results "Bellevue, WA" = some rWit)) :=
  ⟨by decide, cache_hit_skips_network oracleOk (fun _ => none) ["Bellevue, WA"]
    ["Bellevue, WA", "Redmond, WA"] "Bellevue, WA" rWit (by decide)⟩

/-- C10: an address whose geocoding attempt fails (empty candidate list or
exception) is stored neither in the cache nor in the returned mapping, and
a later `geocode_addresses` call of the same instance that contains it
performs a fresh network call for it instead of being short-circuited. -/
theorem geocode_failure_not_cached (oracle : String → GeoOutcome)
    (cache₀ : String → Option GeocodeResult) (l₁ l₂ : List String) (a : String)
    (hfail : oracle a = .empty ∨ oracle a = .error)
    (hc : cache₀ a = none) :
    (geocode_addresses oracle cache₀ l₁).cache a = none ∧
      (geocode_addresses oracle cache₀ l₁).results a = none ∧
      (a ∈ l₂ →
        a ∈ (geocode_addresses oracle (geocode_addresses oracle cache₀ l₁).cache l₂).calls) := by
  have h1 : (geocode_addresses oracle cache₀ l₁).cache a = none ∧
      (geocode_addresses oracle cache₀ l₁).results a = none :=
    geocodeRun_fail_inv oracle l₁ _ a hfail ⟨hc, rfl⟩
  refine ⟨h1.1, h1.2, ?_⟩
  intro hmem
  exact geocodeRun_fresh_call oracle l₂ _ a h1.1 hmem

/-- Geocoding oracle used by witnesses: `"X"` has an empty candidate list,
every other address resolves. -/
def oracleFailX : String → GeoOutcome :=
  fun s => if s = "X" then .empty else .success rWit

theorem geocode_failure_not_cached_witness :
    (oracleFailX "X" = .empty ∨ oracleFailX "X" = .error) ∧
    ((fun (_ : String) => (none : Option GeocodeResult)) "X" = none) ∧
    ((geocode_addresses oracleFailX (fun _ => none) ["X"]).cache "X" = none ∧
      (geocode_addresses oracleFailX (fun _ => none) ["X"]).results "X" = none ∧
      ("X" ∈ ["X"] →
        "X" ∈ (geocode_addresses oracleFailX
          (geocode_addresses oracleFailX (fun _ => none) ["X"]).cache ["X"]).calls)) :=
  ⟨by decide, rfl, geocode_failure_not_cached oracleFailX (fun _ => none) ["X"] ["X"] "X"
    (by decide) rfl⟩

/-- A latitude/longitude pair as carried in the route request
(values passed through verbatim from the geocoding result). -/
structure LatLng where
  latitude : String
  longitude : String
deriving DecidableEq

/-- The Routes API request built by `optimize_route` (lines 131-147).
The nested `{"location": {"latLng": ...}}` wrappers carry no further data
and are flattened into the `LatLng` itself. -/
structure RouteRequest where
  origin : LatLng
  destination : LatLng
  intermediates : List LatLng
  travelMode : String
  routingPreference : String
  optimizeWaypointOrder : Bool
  computeAlternativeRoutes : Bool
  avoidTolls : Bool
  avoidHighways : Bool
  avoidFerries : Bool
  languageCode : String
  units : String
deriving DecidableEq

/-- One leg of the Routes API response; fields read by `_process_route`
(`distanceMeters` and the `duration` string). `none` models an absent key. -/
structure Leg where
  distanceMeters : Option Int
  duration : Option String
deriving DecidableEq

/-- The first route candidate of the Routes API response; fields read by
`_process_route`. `polyline` models `route.get('polyline', {}).get('encodedPolyline', '')`
flattened to the inner string. -/
structure RouteData where
  optimizedIntermediateWaypointIndex : Option (List Int)
  polyline : Option String
  legs : Option (List Leg)
  distanceMeters : Option Int
  duration : Option String
deriving DecidableEq

/-- The Routes API HTTP response: status code plus the `routes` array
(`none` models a body without a `routes` key / an empty body). -/
structure RoutesResponse where
  status_code : Nat
  routes : Option (List RouteData)

/-- Decimal digit value of a character, if any. -/
def digitVal? (c : Char) : Option Nat :=
  if 48 ≤ c.toNat ∧ c.toNat ≤ 57 then some (c.toNat - 48) else none

def digitsAux : List Char → Nat → Option Nat
  | [], acc => some acc
  | c :: rest, acc =>
    match digitVal? c with
    | some d => digitsAux rest (acc * 10 + d)
    | none => none

/-- A nonempty all-digit character sequence as a number. -/
def digitsToNat? (l : List Char) : Option Nat :=
  if l = [] then none else digitsAux l 0

/-- Python `int(string)`: optional sign followed by decimal digits.
(Python's extra tolerance for surrounding whitespace and digit-group
underscores is not exercised by the canonical `"<seconds>s"` duration
strings of the Routes API and is not modelled.) -/
def strToInt? : List Char → Option Int
  | '-' :: rest => (digitsToNat? rest).map (fun n => -(n : Int))
  | '+' :: rest => (digitsToNat? rest).map (fun n => (n : Int))
  | l => (digitsToNat? l).map (fun n => (n : Int))

/-- Python `int(duration_str[:-1])` guarded by `duration_str.endswith('s')`
(lines 191-195, 217-221, 240-244): absent field or missing `'s'` suffix
yields 0 seconds; a suffixed string that does not parse as an integer
raises (`Except.error`). `endswith` of the one-character suffix is a
last-character check and `duration_str[:-1]` drops the last character. -/
def parseDurationSeconds (d : Option String) : Except String Int :=
  match d with
  | none => .ok 0
  | some s =>
    if s.data.getLast? = some 's' then
      match strToInt? s.data.dropLast with
      | some n => .ok n
      | none => .error "invalid literal for int()"
    else .ok 0

/-- Python list indexing `l[i]`: a negative index counts from the end;
an index out of `[-len, len)` raises `IndexError`. -/
def pyGet {α : Type} (l : List α) (i : Int) : Except String α :=
  let j : Int := if i < 0 then i + l.length else i
  if 0 ≤ j then
    match l.get? j.toNat with
    | some x => .ok x
    | none => .error "list index out of range"
  else .error "list index out of range"

/-- The reconstruction loop of `_process_route` (lines 198-202): for each
entry of the optimized order, append `destinations[idx]` when
`idx < len(destinations)`, skip it otherwise. -/
def buildOptimized (destinations : List String) : List Int → Except String (List String)
  | [] => .ok []
  | idx :: rest =>
    if idx < (destinations.length : Int) then
      match pyGet destinations idx with
      | .ok d =>
        match buildOptimized destinations rest with
        | .ok l => .ok (d :: l)
        | .error e => .error e
      | .error e => .error e
    else buildOptimized destinations rest

/-- The integer nearest to `q`, ties to even (the rounding of Python's
`round`). Written with integer arithmetic on `q.num`/`q.den`:
`q.num.fdiv q.den` is `⌊q⌋` and `r / q.den` is the fractional part. -/
def roundHalfEven (q : ℚ) : ℤ :=
  let f := q.num.fdiv q.den
  let r := q.num - f * q.den
  if 2 * r < (q.den : Int) then f
  else if (q.den : Int) < 2 * r then f + 1
  else if f % 2 = 0 then f else f + 1

/-- Is `2^e ≤ num/den`? (`num`, `den` positive.) -/
def twoPowLe (e : ℤ) (num den : ℕ) : Bool :=
  if 0 ≤ e then den * 2 ^ e.toNat ≤ num else den ≤ num * 2 ^ (-e).toNat

def log2Aux : ℕ → ℕ → ℕ
  | 0, _ => 0
  | fuel + 1, n => if n ≤ 1 then 0 else log2Aux fuel (n / 2) + 1

/-- `⌊log₂ n⌋` for `n ≥ 1` (0 at 0), by structural recursion on a fuel
bound of `n` halvings. -/
def natLog2 (n : ℕ) : ℕ := log2Aux n n

/-- The exact rational value of the IEEE-754 binary64 (CPython `float`)
nearest to `q`, ties to even mantissas: sign × mantissa × 2^(e-52) with
`2^52 ≤ mantissa ≤ 2^53` and `2^e ≤ |q| < 2^(e+1)`. Only the normal range
matters here — the program's floats are quotients `m/1000` of integer
meter counts and their two-decimal roundings, which never reach the
subnormal range (below 2^-1022) except at exactly 0, and overflow to
infinity (beyond ~1.8e308) is outside the model. -/
def nearestDouble (q : ℚ) : ℚ :=
  if q = 0 then 0
  else
    let num : ℕ := q.num.natAbs
    let den : ℕ := q.den
    let e0 : ℤ := (natLog2 num : ℤ) - (natLog2 den : ℤ)
    let e : ℤ := if twoPowLe e0 num den then e0 else e0 - 1
    let mant : ℤ :=
      if 0 ≤ 52 - e then roundHalfEven (mkRat ((num : ℤ) * 2 ^ (52 - e).toNat) den)
      else roundHalfEven (mkRat (num : ℤ) (den * 2 ^ (e - 52).toNat))
    let smant : ℤ := if q.num < 0 then -mant else mant
    if 0 ≤ e - 52 then mkRat (smant * 2 ^ (e - 52).toNat) 1
    else mkRat smant (2 ^ (52 - e).toNat)

/-- Exact two-decimal rounding, ties to even, of the exact rational `q`:
the integer nearest to `100 * q` divided by 100. (`mkRat (q.num * 100)
q.den` is `q * 100`.) This is the idealized reading of "divided by 1000
and rounded to two decimals"; the program instead rounds the binary
double, see `round2`. -/
def round2Exact (q : ℚ) : ℚ := mkRat (roundHalfEven (mkRat (q.num * 100) q.den)) 100

/-- CPython `round(x, 2)` on the double whose exact value is `q`:
correctly-rounded decimal rounding of that exact value to two decimals
(ties to even — unreachable for scaled doubles), read back as a double. -/
def round2 (q : ℚ) : ℚ := nearestDouble (round2Exact q)

/-- One entry of the `waypoints` list of the result (lines 223-230 and
246-253). `geocoded_start`/`geocoded_end` are `geocoded.get(addr, {})`,
with `none` for the empty-dict default. -/
structure WaypointInfo where
  start_location : String
  end_location : String
  geocoded_start : Option GeocodeResult
  geocoded_end : Option GeocodeResult
  distance_km : ℚ
  duration_mins : Int
deriving DecidableEq

/-- Builds one waypoint entry from a leg of the response
(`distanceMeters / 1000`, duration string parsed then floor-divided by 60). -/
def legInfo (geocoded : String → Option GeocodeResult) (startA endA : String)
    (leg : Leg) : Except String WaypointInfo :=
  match parseDurationSeconds leg.duration with
  | .error e => .error e
  | .ok secs =>
    .ok { start_location := startA
          end_location := endA
          geocoded_start := geocoded startA
          geocoded_end := geocoded endA
          distance_km := mkRat (leg.distanceMeters.getD 0) 1000
          duration_mins := secs.fdiv 60 }

/-- The loop `for i in range(len(optimized_destinations))` of
`_process_route` (lines 233-253), pairing `optimized_destinations` with
`legs[1:]` positionally; the end of each hop is the next destination or,
for the last one, the origin. -/
def midWaypoints (geocoded : String → Option GeocodeResult) (origin : String) :
    List String → List Leg → Except String (List WaypointInfo)
  | [], _ => .ok []
  | _, [] => .ok []
  | s :: rest, leg :: legsRest =>
    match legInfo geocoded s (rest.headD origin) leg with
    | .error e => .error e
    | .ok w =>
      match midWaypoints geocoded origin rest legsRest with
      | .error e => .error e
      | .ok ws => .ok (w :: ws)

/-- The `waypoints` construction of `_process_route` (lines 206-253): no
entries when the response has no legs; otherwise the first entry runs
origin → first optimized destination (or origin when there is none) using
`legs[0]`, followed by the loop over the optimized destinations. -/
def mkWaypoints (geocoded : String → Option GeocodeResult) (origin : String)
    (optimizedDestinations : List String) (legs : List Leg) :
    Except String (List WaypointInfo) :=
  match legs with
  | [] => .ok []
  | leg0 :: legsRest =>
    match legInfo geocoded origin (optimizedDestinations.headD origin) leg0 with
    | .error e => .error e
    | .ok w0 =>
      match midWaypoints geocoded origin optimizedDestinations legsRest with
      | .error e => .error e
      | .ok ws => .ok (w0 :: ws)

/-- The per-stop text emitted into the Google Maps URL (lines 283-305):
`"lat,lng"` when the address has a geocode result, otherwise the raw
address with spaces replaced by `+` (`.replace(' ', '+')` with a
one-character pattern is a character-wise substitution). -/
def stopRepr (geocoded : String → Option GeocodeResult) (addr : String) : String :=
  match geocoded addr with
  | some r => r.lat ++ "," ++ r.lng
  | none => ⟨addr.data.map (fun c => if c = ' ' then '+' else c)⟩

/-- Python `url.rstrip('/')`: drop every trailing `'/'`. -/
def rstripSlash (s : String) : String :=
  ⟨(s.data.reverse.dropWhile (fun c => c = '/')).reverse⟩

/-- The sequential `url += f"...{seg}/"` appends: each stop contributes its
representation followed by `'/'`. -/
def concatSeg : List String → String
  | [] => ""
  | s :: rest => s ++ "/" ++ concatSeg rest

/-- The full ordered stop sequence of the map URL: origin, each optimized
destination, and the return to the origin. -/
def mapStops (geocoded : String → Option GeocodeResult) (origin : String)
    (optimizedDestinations : List String) : List String :=
  stopRepr geocoded origin ::
    (optimizedDestinations.map (stopRepr geocoded) ++ [stopRepr geocoded origin])

/-- `RouteOptimizer._generate_map_url` (lines 271-366). Both branches build
the same sequential URL (base, origin, all destinations, origin) and strip
trailing slashes; the `> 9` branch additionally cuts the URL at the first
`'@'`. (The `destination_batches` computed there are never used for the
returned URL.) The `try/except` wrapper is dead in this model because no
step of the construction can raise. -/
def generateMapUrl (geocoded : String → Option GeocodeResult) (origin : String)
    (optimizedDestinations : List String) : String :=
  if optimizedDestinations.length ≤ 9 then
    rstripSlash
      ("https://www.google.com/maps/dir/" ++
        concatSeg (mapStops geocoded origin optimizedDestinations))
  else
    let url := rstripSlash
      ("https://www.google.com/maps/dir/" ++
        concatSeg (mapStops geocoded origin optimizedDestinations))
    if url.data.contains '@' then ⟨url.data.takeWhile (fun c => c ≠ '@')⟩ else url

/-- The structured result of `_process_route` (lines 255-267). -/
structure RouteResult where
  origin : String
  destinations : List String
  optimized_waypoint_order : List Int
  optimized_destinations : List String
  total_distance_km : ℚ
  total_duration_mins : Int
  waypoints : List WaypointInfo
  polyline : String
  google_maps_url : String
deriving DecidableEq

/-- `RouteOptimizer._process_route` (lines 178-269). -/
def processRoute (geocoded : String → Option GeocodeResult) (origin : String)
    (destinations : List String) (route : RouteData) : Except String RouteResult :=
  match parseDurationSeconds route.duration with
  | .error e => .error e
  | .ok totalDurationSeconds =>
    match (if route.optimizedIntermediateWaypointIndex.getD [] ≠ [] ∧ destinations ≠ []
           then buildOptimized destinations (route.optimizedIntermediateWaypointIndex.getD [])
           else .ok destinations) with
    | .error e => .error e
    | .ok optimizedDestinations =>
      match mkWaypoints geocoded origin optimizedDestinations (route.legs.getD []) with
      | .error e => .error e
      | .ok waypoints =>
        .ok { origin := origin
              destinations := destinations
              optimized_waypoint_order := route.optimizedIntermediateWaypointIndex.getD []
              optimized_destinations := optimizedDestinations
              total_distance_km := round2 (nearestDouble (mkRat (route.distanceMeters.getD 0) 1000))
              total_duration_mins := totalDurationSeconds.fdiv 60
              waypoints := waypoints
              polyline := route.polyline.getD ""
              google_maps_url := generateMapUrl geocoded origin optimizedDestinations }

/-- The `intermediates` of the route request (lines 119-129): the
destinations that are present in the geocode mapping, in input order. -/
def intermediatesOf (geocoded : String → Option GeocodeResult)
    (destinations : List String) : List LatLng :=
  destinations.filterMap (fun a => (geocoded a).map (fun r => ⟨r.lat, r.lng⟩))

/-- The Routes API request body (lines 131-147): destination equals origin
(round trip), waypoint-order optimization on, alternatives off, driving
with traffic-aware routing. -/
def buildRouteRequest (originLoc : LatLng) (inters : List LatLng) : RouteRequest :=
  { origin := originLoc
    destination := originLoc
    intermediates := inters
    travelMode := "DRIVE"
    routingPreference := "TRAFFIC_AWARE"
    optimizeWaypointOrder := true
    computeAlternativeRoutes := false
    avoidTolls := false
    avoidHighways := false
    avoidFerries := false
    languageCode := "en-US"
    units := "METRIC" }

/-- Outcome of one `optimize_route` call: the returned value or the raised
exception, plus whether a Routes API request was issued. -/
structure OptimizeOutcome where
  result : Except String RouteResult
  routeRequestIssued : Bool

/-- `RouteOptimizer.optimize_route` (lines 87-176): geocode
`[origin] + destinations`, fail if the origin is unresolved, build the
request, call the Routes API, fail on a non-200 status or a missing/empty
`routes` array, else process the first route candidate. -/
def optimize_route (geo : String → GeoOutcome) (api : RouteRequest → RoutesResponse)
    (cache₀ : String → Option GeocodeResult) (origin : String)
    (destinations : List String) : OptimizeOutcome :=
  let geocoded := (geocode_addresses geo cache₀ (origin :: destinations)).results
  match geocoded origin with
  | none => ⟨.error ("Failed to geocode origin address: " ++ origin), false⟩
  | some g =>
    let req := buildRouteRequest ⟨g.lat, g.lng⟩ (intermediatesOf geocoded destinations)
    let resp := api req
    if resp.status_code ≠ 200 then
      ⟨.error "Routes API error", true⟩
    else
      match resp.routes with
      | none => ⟨.error "No routes returned from Routes API", true⟩
      | some [] => ⟨.error "No routes returned from Routes API", true⟩
      | some (route :: _) => ⟨processRoute geocoded origin destinations route, true⟩

/-- Inversion for a successful `_process_route`: every field of the result
is determined by the route data and the reconstructed destination list. -/
theorem processRoute_ok_inv {geocoded : String → Option GeocodeResult} {origin : String}
    {destinations : List String} {route : RouteData} {res : RouteResult}
    (h : processRoute geocoded origin destinations route = .ok res) :
    ∃ secs od ws,
      parseDurationSeconds route.duration = .ok secs ∧
      (if route.optimizedIntermediateWaypointIndex.getD [] ≠ [] ∧ destinations ≠ []
       then buildOptimized destinations (route.optimizedIntermediateWaypointIndex.getD [])
       else .ok destinations) = .ok od ∧
      mkWaypoints geocoded origin od (route.legs.getD []) = .ok ws ∧
      res = { origin := origin
              destinations := destinations
              optimized_waypoint_order := route.optimizedIntermediateWaypointIndex.getD []
              optimized_destinations := od
              total_distance_km := round2 (nearestDouble (mkRat (route.distanceMeters.getD 0) 1000))
              total_duration_mins := secs.fdiv 60
              waypoints := ws
              polyline := route.polyline.getD ""
              google_maps_url := generateMapUrl geocoded origin od } := by
  cases h1 : parseDurationSeconds route.duration with
  | error e =>
    have he : processRoute geocoded origin destinations route = .error e := by
      unfold processRoute; simp only [h1]
    rw [he] at h
    exact Except.noConfusion h
  | ok secs =>
    cases h2 : (if route.optimizedIntermediateWaypointIndex.getD [] ≠ [] ∧ destinations ≠ []
        then buildOptimized destinations (route.optimizedIntermediateWaypointIndex.getD [])
        else .ok destinations) with
    | error e =>
      have he : processRoute geocoded origin destinations route = .error e := by
        unfold processRoute; simp only [h1, h2]
      rw [he] at h
      exact Except.noConfusion h
    | ok od =>
      cases h3 : mkWaypoints geocoded origin od (route.legs.getD []) with
      | error e =>
        have he : processRoute geocoded origin destinations route = .error e := by
          unfold processRoute; simp only [h1, h2, h3]
        rw [he] at h
        exact Except.noConfusion h
      | ok ws =>
        have he : processRoute geocoded origin destinations route =
            .ok { origin := origin
                  destinations := destinations
                  optimized_waypoint_order := route.optimizedIntermediateWaypointIndex.getD []
                  optimized_destinations := od
                  total_distance_km := round2 (nearestDouble (mkRat (route.distanceMeters.getD 0) 1000))
                  total_duration_mins := secs.fdiv 60
                  waypoints := ws
                  polyline := route.polyline.getD ""
                  google_maps_url := generateMapUrl geocoded origin od } := by
          unfold processRoute; simp only [h1, h2, h3]
        rw [he] at h
        injection h with h4
        exact ⟨secs, od, ws, rfl, rfl, h3, h4.symm⟩

/-- C2 (amended): when the optimized-order field of the response is absent
or empty, `optimized_destinations` is the full original destination list in
input order — including destinations that failed geocoding; it coincides
with the geocoded intermediates in request order when every destination
was geocoded. -/
theorem empty_order_copies_input (geocoded : String → Option GeocodeResult)
    (origin : String) (destinations : List String) (route : RouteData) (res : RouteResult)
    (horder : route.optimizedIntermediateWaypointIndex.getD [] = [])
    (h : processRoute geocoded origin destinations route = .ok res) :
    res.optimized_destinations = destinations ∧
      ((∀ x ∈ destinations, (geocoded x).isSome = true) →
        res.optimized_destinations =
          destinations.filter (fun x => (geocoded x).isSome)) := by
  obtain ⟨secs, od, ws, h1, h2, h3, h4⟩ := processRoute_ok_inv h
  rw [horder] at h2
  simp only [ne_eq, not_true_eq_false, false_and, if_false] at h2
  injection h2 with h2
  have hres : res.optimized_destinations = destinations := by
    rw [h4]
    exact h2.symm
  refine ⟨hres, fun hall => ?_⟩
  rw [List.filter_eq_self.mpr hall]
  exact hres

/-- Geocoding oracle for counterexamples: `"X"` yields an empty candidate
list, everything else resolves to `rWit`. -/
def geoBX : String → GeoOutcome := fun s => if s = "X" then .empty else .success rWit

/-- A Routes API route candidate with no optional field present. -/
def rtNoOrder : RouteData := ⟨none, none, none, none, none⟩

/-- Routes oracle answering 200 with the single given route candidate. -/
def apiOf (rt : RouteData) : RouteRequest → RoutesResponse := fun _ => ⟨200, some [rt]⟩

/-- C2 counterexample: with destinations `["B", "X"]` where `"X"` fails
geocoding and an absent optimized-order field, the code returns
`["B", "X"]` — the full input list — and not the geocoded intermediates
in request order `["B"]`. -/
theorem empty_order_counterexample :
    ((optimize_route geoBX (apiOf rtNoOrder) (fun _ => none) "A" ["B", "X"]).result.toOption.map
      (fun r => r.optimized_destinations)) = some ["B", "X"] ∧
    List.filter
      (fun d => ((geocode_addresses geoBX (fun _ => none) ["A", "B", "X"]).results d).isSome)
      ["B", "X"] = ["B"] ∧
    ((optimize_route geoBX (apiOf rtNoOrder) (fun _ => none) "A" ["B", "X"]).result.toOption.map
      (fun r => r.optimized_destinations)) ≠
      some (List.filter
        (fun d => ((geocode_addresses geoBX (fun _ => none) ["A", "B", "X"]).results d).isSome)
        ["B", "X"]) := by decide

/-- Geocode mapping for witnesses: every address is resolved to `rWit`. -/
def geocodedAll : String → Option GeocodeResult := fun _ => some rWit

/-- Result record of `processRoute geocodedAll "A" ["B"] rtNoOrder`. -/
def resC2W : RouteResult :=
  ⟨"A", ["B"], [], ["B"], 0, 0, [], "",
    "https://www.google.com/maps/dir/47.61,-122.20/47.61,-122.20/47.61,-122.20"⟩

theorem empty_order_copies_input_witness :
    rtNoOrder.optimizedIntermediateWaypointIndex.getD [] = [] ∧
    processRoute geocodedAll "A" ["B"] rtNoOrder = .ok resC2W ∧
    (resC2W.optimized_destinations = ["B"] ∧
      ((∀ x ∈ ["B"], ((geocodedAll x).isSome = true)) →
        resC2W.optimized_destinations = List.filter (fun x => (geocodedAll x).isSome) ["B"])) :=
  ⟨rfl, by decide,
    empty_order_copies_input geocodedAll "A" ["B"] rtNoOrder resC2W rfl (by decide)⟩

/-- C9 counterexample: the entry `-1` is not a valid index into
`["B", "C"]` (valid indices are 0 and 1), yet the reconstruction does not
discard it — it contributes the last element, Python-style; and the entry
`-3` makes the reconstruction perform an out-of-range access that aborts
the whole processing. -/
theorem discard_invalid_index_counterexample :
    buildOptimized ["B", "C"] [-1] = .ok ["C"] ∧
    buildOptimized ["B", "C"] [-1] ≠ .ok [] ∧
    buildOptimized ["B", "C"] [-3] = .error "list index out of range" ∧
    processRoute (fun _ => none) "A" ["B", "C"] ⟨some [-3], none, none, none, none⟩ =
      .error "list index out of range" := by decide

/-- C9 (amended): an entry of the optimized order that is at least the
destination count is discarded, and when every entry is nonnegative the
reconstruction performs no out-of-range access: it returns exactly the
`destinations[idx]` for the in-bounds entries, in order. -/
theorem buildOptimized_nonneg (destinations : List String) (order : List Int)
    (h : ∀ e ∈ order, 0 ≤ e) :
    buildOptimized destinations order =
      .ok (order.filterMap (fun e =>
        if e < (destinations.length : Int) then destinations.get? e.toNat else none)) := by
  induction order with
  | nil => rfl
  | cons e rest ih =>
    have h0 : 0 ≤ e := h e (List.mem_cons_self e rest)
    have hrest : ∀ x ∈ rest, 0 ≤ x := fun x hx => h x (List.mem_cons_of_mem e hx)
    unfold buildOptimized
    by_cases hlt : e < (destinations.length : Int)
    · have hnat : e.toNat < destinations.length := by omega
      obtain ⟨d, hd⟩ : ∃ d, destinations.get? e.toNat = some d := by
        cases hg : destinations.get? e.toNat with
        | none =>
          rw [List.get?_eq_none] at hg
          omega
        | some d => exact ⟨d, rfl⟩
      have hpy : pyGet destinations e = .ok d := by
        have hneg : ¬ e < 0 := by omega
        simp only [pyGet, if_neg hneg, if_pos h0, hd]
      rw [if_pos hlt]
      simp only [hpy, ih hrest, List.filterMap_cons, if_pos hlt, hd]
    · rw [if_neg hlt]
      rw [ih hrest]
      simp only [List.filterMap_cons, if_neg hlt]

theorem buildOptimized_nonneg_witness :
    (∀ e ∈ ([0, 5] : List Int), 0 ≤ e) ∧
    buildOptimized ["B", "C"] [0, 5] =
      .ok (([0, 5] : List Int).filterMap (fun e =>
        if e < ((["B", "C"] : List String).length : Int) then ["B", "C"].get? e.toNat
        else none)) :=
  ⟨by decide, buildOptimized_nonneg ["B", "C"] [0, 5] (by decide)⟩

/-- C7 (amended): the reported totals come from the route-level summary
fields: `total_distance_km` is the binary double-precision quotient
`distanceMeters / 1000` rounded to two decimals the way CPython's `round`
does (correct decimal rounding of the double's exact value, read back as
a double) — which can differ from exact two-decimal rounding of the exact
quotient, see `totals_rounding_counterexample`; `total_duration_mins` is
the whole-minute floor division by 60 of the seconds parsed from the
route-level duration string (0 when the field is absent or lacks the
`'s'` suffix); replacing the legs of the response changes neither total —
they are not re-derived by summing legs. -/
theorem totals_from_route_summary (geocoded : String → Option GeocodeResult)
    (origin : String) (destinations : List String) (route : RouteData) (res : RouteResult)
    (h : processRoute geocoded origin destinations route = .ok res) :
    res.total_distance_km = round2 (nearestDouble ((route.distanceMeters.getD 0 : ℚ) / 1000)) ∧
    (∃ secs, parseDurationSeconds route.duration = .ok secs ∧
      res.total_duration_mins = secs.fdiv 60) ∧
    (route.duration = none → res.total_duration_mins = 0) ∧
    (∀ s, route.duration = some s → s.data.getLast? ≠ some 's' →
      res.total_duration_mins = 0) ∧
    (∀ legs' res',
      processRoute geocoded origin destinations { route with legs := legs' } = .ok res' →
      res'.total_distance_km = res.total_distance_km ∧
      res'.total_duration_mins = res.total_duration_mins) := by
  obtain ⟨secs, od, ws, h1, h2, h3, h4⟩ := processRoute_ok_inv h
  have hdist : res.total_distance_km =
      round2 (nearestDouble ((route.distanceMeters.getD 0 : ℚ) / 1000)) := by
    rw [h4]
    show round2 (nearestDouble (mkRat (route.distanceMeters.getD 0) 1000)) = _
    rw [Rat.mkRat_eq_div]
    norm_num
  have hdur : res.total_duration_mins = secs.fdiv 60 := by rw [h4]
  refine ⟨hdist, ⟨secs, h1, hdur⟩, ?_, ?_, ?_⟩
  · intro hnone
    rw [hnone] at h1
    injection h1 with h1
    rw [hdur, ← h1]
    exact Int.zero_fdiv 60
  · intro s hs hsuffix
    rw [hs] at h1
    simp only [parseDurationSeconds] at h1
    rw [if_neg hsuffix] at h1
    injection h1 with h1
    rw [hdur, ← h1]
    exact Int.zero_fdiv 60
  · intro legs' res' h'
    obtain ⟨secs', od', ws', h1', h2', h3', h4'⟩ := processRoute_ok_inv h'
    have hsecs : secs' = secs := by
      have : parseDurationSeconds route.duration = .ok secs' := h1'
      rw [h1] at this
      injection this with this
      exact this.symm
    constructor
    · rw [h4', hdist]
      show round2 (nearestDouble (mkRat (route.distanceMeters.getD 0) 1000)) = _
      rw [Rat.mkRat_eq_div]
      norm_num
    · rw [h4', hdur, hsecs]

/-- Route candidate used by the C7 witness. -/
def rtC7 : RouteData := ⟨none, none, none, some 12345, some "600s"⟩

/-- Result record of `processRoute (fun _ => none) "A" [] rtC7`: the
distance is the double nearest to 12.35 (CPython reports 12.35 at
12345 m because the double 12.345 lies above the decimal midpoint). -/
def resC7W : RouteResult :=
  ⟨"A", [], [], [], nearestDouble (mkRat 1235 100), 10, [], "",
    "https://www.google.com/maps/dir/A/A"⟩

set_option maxRecDepth 100000 in
theorem totals_from_route_summary_witness :
    processRoute (fun _ => none) "A" [] rtC7 = .ok resC7W ∧
    resC7W.total_distance_km =
      round2 (nearestDouble ((rtC7.distanceMeters.getD 0 : ℚ) / 1000)) ∧
    resC7W.total_duration_mins = 10 :=
  ⟨by decide,
    (totals_from_route_summary (fun _ => none) "A" [] rtC7 resC7W (by decide)).1,
    by decide⟩

/-- Route candidate carrying 15 meters. -/
def rtDist15 : RouteData := ⟨none, none, none, some 15, none⟩

set_option maxRecDepth 100000 in
/-- C7 counterexample: the program divides in binary double precision
first. At 15 meters the double `0.015` lies below the decimal midpoint,
so the code reports the double 0.01, while "distanceMeters divided by
1000 and rounded to two decimals" on the exact quotient gives 0.02. -/
theorem totals_rounding_counterexample :
    ((processRoute (fun _ => none) "A" [] rtDist15).toOption.map
      (fun r => r.total_distance_km)) = some (nearestDouble (mkRat 1 100)) ∧
    round2Exact ((15 : ℚ) / 1000) = mkRat 2 100 ∧
    ((processRoute (fun _ => none) "A" [] rtDist15).toOption.map
      (fun r => r.total_distance_km)) ≠ some (round2Exact ((15 : ℚ) / 1000)) := by
  have h15 : (15 : ℚ) / 1000 = mkRat 15 1000 := by
    rw [Rat.mkRat_eq_div]
    norm_num
  refine ⟨by decide, ?_, ?_⟩
  · rw [h15]
    decide
  · rw [h15]
    decide

/-- C5: if the origin is absent from the geocode mapping produced for
`[origin] + destinations`, `optimize_route` fails with the origin error,
no Routes API request is issued, and no partial result is returned. -/
theorem origin_unresolved_aborts (geo : String → GeoOutcome)
    (api : RouteRequest → RoutesResponse) (cache₀ : String → Option GeocodeResult)
    (origin : String) (destinations : List String)
    (h : (geocode_addresses geo cache₀ (origin :: destinations)).results origin = none) :
    (optimize_route geo api cache₀ origin destinations).result =
      .error ("Failed to geocode origin address: " ++ origin) ∧
    (optimize_route geo api cache₀ origin destinations).routeRequestIssued = false := by
  constructor <;> simp [optimize_route, h]

/-- Geocoding oracle for witnesses: every candidate list is empty. -/
def geoAllEmpty : String → GeoOutcome := fun _ => .empty

/-- Routes oracle for witnesses: 200 with no `routes` key. -/
def apiAny : RouteRequest → RoutesResponse := fun _ => ⟨200, none⟩

theorem origin_unresolved_aborts_witness :
    (geocode_addresses geoAllEmpty (fun _ => none) ("A" :: [])).results "A" = none ∧
    ((optimize_route geoAllEmpty apiAny (fun _ => none) "A" []).result =
        .error ("Failed to geocode origin address: " ++ "A") ∧
      (optimize_route geoAllEmpty apiAny (fun _ => none) "A" []).routeRequestIssued = false) :=
  ⟨by decide, origin_unresolved_aborts geoAllEmpty apiAny (fun _ => none) "A" [] (by decide)⟩

/-- C6: when the Routes API response for the request the call builds has a
non-2xx status, or its `routes` array is absent or empty, `optimize_route`
raises and returns no partial result. -/
theorem route_service_failure_aborts (geo : String → GeoOutcome)
    (api : RouteRequest → RoutesResponse) (cache₀ : String → Option GeocodeResult)
    (origin : String) (destinations : List String) (g : GeocodeResult)
    (hg : (geocode_addresses geo cache₀ (origin :: destinations)).results origin = some g)
    (hbad :
      (api (buildRouteRequest ⟨g.lat, g.lng⟩
        (intermediatesOf (geocode_addresses geo cache₀ (origin :: destinations)).results
          destinations))).status_code < 200 ∨
      300 ≤ (api (buildRouteRequest ⟨g.lat, g.lng⟩
        (intermediatesOf (geocode_addresses geo cache₀ (origin :: destinations)).results
          destinations))).status_code ∨
      (api (buildRouteRequest ⟨g.lat, g.lng⟩
        (intermediatesOf (geocode_addresses geo cache₀ (origin :: destinations)).results
          destinations))).routes.getD [] = []) :
    ∃ e, (optimize_route geo api cache₀ origin destinations).result = .error e := by
  unfold optimize_route
  simp only [hg]
  by_cases hs : (api (buildRouteRequest ⟨g.lat, g.lng⟩
      (intermediatesOf (geocode_addresses geo cache₀ (origin :: destinations)).results
        destinations))).status_code = 200
  · rw [if_neg (not_not_intro hs)]
    have hroutes : (api (buildRouteRequest ⟨g.lat, g.lng⟩
        (intermediatesOf (geocode_addresses geo cache₀ (origin :: destinations)).results
          destinations))).routes.getD [] = [] := by
      rcases hbad with h1 | h2 | h3
      · omega
      · omega
      · exact h3
    cases hr : (api (buildRouteRequest ⟨g.lat, g.lng⟩
        (intermediatesOf (geocode_addresses geo cache₀ (origin :: destinations)).results
          destinations))).routes with
    | none => exact ⟨_, rfl⟩
    | some l =>
      cases l with
      | nil => exact ⟨_, rfl⟩
      | cons x xs =>
        rw [hr] at hroutes
        simp at hroutes
  · rw [if_pos hs]
    exact ⟨_, rfl⟩

/-- Routes oracle for witnesses: server error 500. -/
def api500 : RouteRequest → RoutesResponse := fun _ => ⟨500, none⟩

theorem route_service_failure_aborts_witness :
    (geocode_addresses oracleOk (fun _ => none) ("A" :: [])).results "A" = some rWit ∧
    300 ≤ (api500 (buildRouteRequest ⟨rWit.lat, rWit.lng⟩
      (intermediatesOf (geocode_addresses oracleOk (fun _ => none) ("A" :: [])).results
        []))).status_code ∧
    ∃ e, (optimize_route oracleOk api500 (fun _ => none) "A" []).result = .error e :=
  ⟨by decide, by decide,
    route_service_failure_aborts oracleOk api500 (fun _ => none) "A" [] rWit (by decide)
      (Or.inr (Or.inl (by decide)))⟩

/-- Geocode results for the three resolvable addresses of the C1 exhibit. -/
def rGeoB : GeocodeResult := ⟨"47.61", "-122.20", "pB", "Bellevue, WA, USA"⟩

def rGeoC : GeocodeResult := ⟨"47.53", "-122.03", "pC", "Issaquah, WA, USA"⟩

def rGeoA : GeocodeResult := ⟨"47.58", "-122.04", "pA", "Sammamish, WA, USA"⟩

/-- Geocoding oracle of the C1 exhibit: `"X"` has an empty candidate list,
the other addresses resolve. -/
def geoBXC : String → GeoOutcome :=
  fun s =>
    if s = "X" then .empty
    else if s = "B" then .success rGeoB
    else if s = "C" then .success rGeoC
    else .success rGeoA

/-- Route candidate whose optimized order is the permutation `[1, 0]` of
the two intermediates that were actually sent. -/
def rtOrder10 : RouteData := ⟨some [1, 0], none, none, none, none⟩

/-- C1: the code indexes the optimized order into the unfiltered original
destination list. With destinations `["B", "X", "C"]` where `"X"` fails
geocoding, the request's intermediates are the coordinates of `B` and `C`
only, and a response order `[1, 0]` (a permutation of those two
intermediates) makes the code return `["X", "B"]`: the never-geocoded
`"X"` appears in `optimized_destinations`, `"C"` is dropped, and the
result is not a permutation of the geocoded intermediates. -/
theorem unresolved_destination_reappears :
    (geocode_addresses geoBXC (fun _ => none) ["A", "B", "X", "C"]).results "X" = none ∧
    intermediatesOf (geocode_addresses geoBXC (fun _ => none) ["A", "B", "X", "C"]).results
      ["B", "X", "C"] = [⟨rGeoB.lat, rGeoB.lng⟩, ⟨rGeoC.lat, rGeoC.lng⟩] ∧
    ((optimize_route geoBXC (apiOf rtOrder10) (fun _ => none) "A" ["B", "X", "C"]).result.toOption.map
      (fun r => r.optimized_destinations)) = some ["X", "B"] ∧
    ("X" ∈ (["X", "B"] : List String) ∧ ("C" ∈ (["X", "B"] : List String)) = False) := by
  decide

/-- Defaults used for positional access in statements about waypoints. -/
def legDefault : Leg := ⟨none, none⟩

def wDefault : WaypointInfo := ⟨"", "", none, none, 0, 0⟩

theorem headD_eq_getD {α : Type} (l : List α) (d : α) : l.headD d = l.getD 0 d := by
  cases l <;> rfl

theorem legInfo_ok (geocoded : String → Option GeocodeResult) (startA endA : String)
    (leg : Leg) (w : WaypointInfo) (h : legInfo geocoded startA endA leg = .ok w) :
    ∃ secs, parseDurationSeconds leg.duration = .ok secs ∧
      w = ⟨startA, endA, geocoded startA, geocoded endA,
        mkRat (leg.distanceMeters.getD 0) 1000, secs.fdiv 60⟩ := by
  cases hp : parseDurationSeconds leg.duration with
  | error e =>
    have he : legInfo geocoded startA endA leg = .error e := by
      unfold legInfo; simp only [hp]
    rw [he] at h
    exact Except.noConfusion h
  | ok secs =>
    have he : legInfo geocoded startA endA leg =
        .ok ⟨startA, endA, geocoded startA, geocoded endA,
          mkRat (leg.distanceMeters.getD 0) 1000, secs.fdiv 60⟩ := by
      unfold legInfo; simp only [hp]
    rw [he] at h
    injection h with h
    exact ⟨secs, rfl, h.symm⟩

/-- Characterization of the intermediate-leg loop: it pairs the optimized
destinations with `legs[1:]` positionally and stops at the shorter of the
two; entry `i` runs from stop `i` to stop `i+1` (or back to the origin). -/
theorem midWaypoints_spec (geocoded : String → Option GeocodeResult) (origin : String) :
    ∀ (od : List String) (legs : List Leg) (ws : List WaypointInfo),
    midWaypoints geocoded origin od legs = .ok ws →
    ws.length = min od.length legs.length ∧
    ∀ i, i < ws.length →
      (ws.getD i wDefault).start_location = od.getD i origin ∧
      (ws.getD i wDefault).end_location = od.getD (i + 1) origin ∧
      (ws.getD i wDefault).distance_km =
        mkRat ((legs.getD i legDefault).distanceMeters.getD 0) 1000 ∧
      ∃ secs, parseDurationSeconds (legs.getD i legDefault).duration = .ok secs ∧
        (ws.getD i wDefault).duration_mins = secs.fdiv 60 := by
  intro od
  induction od with
  | nil =>
    intro legs ws h
    have hws : ws = [] := by
      simp only [midWaypoints, Except.ok.injEq] at h
      exact h.symm
    subst hws
    exact ⟨by simp, fun i hi => absurd hi (by simp)⟩
  | cons s rest ih =>
    intro legs ws h
    cases legs with
    | nil =>
      have hws : ws = [] := by
        unfold midWaypoints at h
        injection h with h
        exact h.symm
      subst hws
      exact ⟨by simp, fun i hi => absurd hi (by simp)⟩
    | cons leg legsRest =>
      cases hL : legInfo geocoded s (rest.headD origin) leg with
      | error e =>
        have he : midWaypoints geocoded origin (s :: rest) (leg :: legsRest) = .error e := by
          unfold midWaypoints; simp only [hL]
        rw [he] at h
        exact Except.noConfusion h
      | ok w =>
        cases hM : midWaypoints geocoded origin rest legsRest with
        | error e =>
          have he : midWaypoints geocoded origin (s :: rest) (leg :: legsRest) = .error e := by
            unfold midWaypoints; simp only [hL, hM]
          rw [he] at h
          exact Except.noConfusion h
        | ok ws' =>
          have he : midWaypoints geocoded origin (s :: rest) (leg :: legsRest) =
              .ok (w :: ws') := by
            unfold midWaypoints; simp only [hL, hM]
          rw [he] at h
          injection h with h
          subst h
          obtain ⟨hlen, hidx⟩ := ih legsRest ws' hM
          obtain ⟨secs, hsecs, hw⟩ := legInfo_ok geocoded s (rest.headD origin) leg w hL
          constructor
          · simp only [List.length_cons]
            omega
          · intro i hi
            cases i with
            | zero =>
              subst hw
              refine ⟨rfl, ?_, rfl, ⟨secs, hsecs, rfl⟩⟩
              show rest.headD origin = (s :: rest).getD 1 origin
              rw [List.getD_cons_succ, headD_eq_getD]
            | succ j =>
              have hj : j < ws'.length := by
                simp only [List.length_cons] at hi
                omega
              obtain ⟨h1, h2, h3, h4⟩ := hidx j hj
              refine ⟨?_, ?_, ?_, ?_⟩
              · rw [List.getD_cons_succ, List.getD_cons_succ]
                exact h1
              · rw [List.getD_cons_succ, List.getD_cons_succ]
                exact h2
              · rw [List.getD_cons_succ, List.getD_cons_succ]
                exact h3
              · rw [List.getD_cons_succ, List.getD_cons_succ]
                exact h4

/-- Characterization of the full waypoints construction (lines 206-253):
no legs means no entries, otherwise entry 0 is origin → first stop with
`legs[0]` and entry `i ≥ 1` is stop `i-1` → stop `i` (origin for the last)
with `legs[i]`; the list stops as soon as the legs run out, at
`min legs.length (stops + 1)` entries. -/
theorem mkWaypoints_spec (geocoded : String → Option GeocodeResult) (origin : String)
    (od : List String) (legs : List Leg) (ws : List WaypointInfo)
    (h : mkWaypoints geocoded origin od legs = .ok ws) :
    ws.length = min legs.length (od.length + 1) ∧
    ∀ i, i < ws.length →
      ((ws.getD i wDefault).start_location =
        if i = 0 then origin else od.getD (i - 1) origin) ∧
      ((ws.getD i wDefault).end_location =
        if i < od.length then od.getD i origin else origin) ∧
      (ws.getD i wDefault).distance_km =
        mkRat ((legs.getD i legDefault).distanceMeters.getD 0) 1000 ∧
      ∃ secs, parseDurationSeconds (legs.getD i legDefault).duration = .ok secs ∧
        (ws.getD i wDefault).duration_mins = secs.fdiv 60 := by
  cases legs with
  | nil =>
    have hws : ws = [] := by
      unfold mkWaypoints at h
      injection h with h
      exact h.symm
    subst hws
    exact ⟨by simp, fun i hi => absurd hi (by simp)⟩
  | cons leg0 legsRest =>
    cases hL : legInfo geocoded origin (od.headD origin) leg0 with
    | error e =>
      have he : mkWaypoints geocoded origin od (leg0 :: legsRest) = .error e := by
        unfold mkWaypoints; simp only [hL]
      rw [he] at h
      exact Except.noConfusion h
    | ok w0 =>
      cases hM : midWaypoints geocoded origin od legsRest with
      | error e =>
        have he : mkWaypoints geocoded origin od (leg0 :: legsRest) = .error e := by
          unfold mkWaypoints; simp only [hL, hM]
        rw [he] at h
        exact Except.noConfusion h
      | ok ws' =>
        have he : mkWaypoints geocoded origin od (leg0 :: legsRest) = .ok (w0 :: ws') := by
          unfold mkWaypoints; simp only [hL, hM]
        rw [he] at h
        injection h with h
        subst h
        obtain ⟨hlen, hidx⟩ := midWaypoints_spec geocoded origin od legsRest ws' hM
        obtain ⟨secs, hsecs, hw0⟩ := legInfo_ok geocoded origin (od.headD origin) leg0 w0 hL
        constructor
        · simp only [List.length_cons]
          omega
        · intro i hi
          cases i with
          | zero =>
            subst hw0
            refine ⟨rfl, ?_, rfl, ⟨secs, hsecs, rfl⟩⟩
            show od.headD origin = _
            rw [headD_eq_getD]
            by_cases hod : 0 < od.length
            · rw [if_pos hod]
            · rw [if_neg hod]
              exact List.getD_eq_default _ _ (by omega)
          | succ j =>
            have hj : j < ws'.length := by
              simp only [List.length_cons] at hi
              omega
            obtain ⟨h1, h2, h3, h4⟩ := hidx j hj
            refine ⟨?_, ?_, ?_, ?_⟩
            · rw [List.getD_cons_succ, if_neg (Nat.succ_ne_zero j)]
              simpa using h1
            · rw [List.getD_cons_succ]
              by_cases hjo : j + 1 < od.length
              · rw [if_pos hjo]
                exact h2
              · rw [if_neg hjo]
                rw [h2]
                exact List.getD_eq_default _ _ (by omega)
            · rw [List.getD_cons_succ, List.getD_cons_succ]
              exact h3
            · rw [List.getD_cons_succ, List.getD_cons_succ]
              exact h4

/-- C3: the waypoints list pairs the response's legs positionally with the
ordered stop sequence — entry 0 runs origin → stop 0 on `legs[0]`, entry
`i` runs stop `i-1` → stop `i` (origin after the last stop) on `legs[i]` —
with exactly `N + 1` entries when the response supplies at least `N + 1`
legs (`N` the optimized stop count), and only trailing entries omitted
when it supplies fewer: the length is `min legs.length (N + 1)`, so no
synthetic legs are fabricated. -/
theorem waypoints_pair_legs_with_stops (geocoded : String → Option GeocodeResult)
    (origin : String) (destinations : List String) (route : RouteData) (res : RouteResult)
    (h : processRoute geocoded origin destinations route = .ok res) :
    res.waypoints.length =
      min (route.legs.getD []).length (res.optimized_destinations.length + 1) ∧
    (res.optimized_destinations.length + 1 ≤ (route.legs.getD []).length →
      res.waypoints.length = res.optimized_destinations.length + 1) ∧
    ∀ i, i < res.waypoints.length →
      ((res.waypoints.getD i wDefault).start_location =
        if i = 0 then origin else res.optimized_destinations.getD (i - 1) origin) ∧
      ((res.waypoints.getD i wDefault).end_location =
        if i < res.optimized_destinations.length then
          res.optimized_destinations.getD i origin
        else origin) ∧
      ((res.waypoints.getD i wDefault).distance_km =
        ((((route.legs.getD []).getD i legDefault).distanceMeters.getD 0 : Int) : ℚ) / 1000) ∧
      ∃ secs, parseDurationSeconds ((route.legs.getD []).getD i legDefault).duration = .ok secs ∧
        (res.waypoints.getD i wDefault).duration_mins = secs.fdiv 60 := by
  obtain ⟨secs, od, ws, h1, h2, h3, h4⟩ := processRoute_ok_inv h
  subst h4
  obtain ⟨hlen, hidx⟩ := mkWaypoints_spec geocoded origin od (route.legs.getD []) ws h3
  refine ⟨hlen, ?_, ?_⟩
  · intro hge
    dsimp only at hge
    show ws.length = od.length + 1
    rw [hlen]
    omega
  · intro i hi
    obtain ⟨ha, hb, hc, hd⟩ := hidx i hi
    refine ⟨ha, hb, ?_, hd⟩
    rw [hc, Rat.mkRat_eq_div]
    norm_num

/-- Route candidate used by the C3 witness: two legs. -/
def rtC3 : RouteData :=
  ⟨none, none, some [⟨some 1000, some "60s"⟩, ⟨some 2000, some "120s"⟩], none, none⟩

/-- Result record of `processRoute (fun _ => none) "A" ["B"] rtC3`. -/
def resC3W : RouteResult :=
  ⟨"A", ["B"], [], ["B"], 0, 0,
    [⟨"A", "B", none, none, 1, 1⟩, ⟨"B", "A", none, none, 2, 2⟩],
    "", "https://www.google.com/maps/dir/A/B/A"⟩

theorem waypoints_pair_legs_with_stops_witness :
    processRoute (fun _ => none) "A" ["B"] rtC3 = .ok resC3W ∧
    (resC3W.waypoints.length =
        min (rtC3.legs.getD []).length (resC3W.optimized_destinations.length + 1) ∧
      (resC3W.optimized_destinations.length + 1 ≤ (rtC3.legs.getD []).length →
        resC3W.waypoints.length = resC3W.optimized_destinations.length + 1) ∧
      ∀ i, i < resC3W.waypoints.length →
        ((resC3W.waypoints.getD i wDefault).start_location =
          if i = 0 then "A" else resC3W.optimized_destinations.getD (i - 1) "A") ∧
        ((resC3W.waypoints.getD i wDefault).end_location =
          if i < resC3W.optimized_destinations.length then
            resC3W.optimized_destinations.getD i "A"
          else "A") ∧
        ((resC3W.waypoints.getD i wDefault).distance_km =
          ((((rtC3.legs.getD []).getD i legDefault).distanceMeters.getD 0 : Int) : ℚ) / 1000) ∧
        ∃ secs, parseDurationSeconds ((rtC3.legs.getD []).getD i legDefault).duration
            = .ok secs ∧
          (resC3W.waypoints.getD i wDefault).duration_mins = secs.fdiv 60) :=
  ⟨by decide,
    waypoints_pair_legs_with_stops (fun _ => none) "A" ["B"] rtC3 resC3W (by decide)⟩

/-- The stop sequence joined by `'/'` — the canonical reading of the path
part of the generated URL. -/
def joinSlash : List String → String
  | [] => ""
  | [s] => s
  | s :: rest => s ++ "/" ++ joinSlash rest

theorem strData (s t : String) : (s ++ t).data = s.data ++ t.data := by
  cases s; cases t; rfl

theorem strExt {s t : String} (h : s.data = t.data) : s = t := by
  cases s; cases t; cases h; rfl

theorem strAssoc (a b c : String) : a ++ b ++ c = a ++ (b ++ c) := by
  apply strExt
  simp only [strData, List.append_assoc]

theorem concatSeg_eq_joinSlash (stops : List String) (h : stops ≠ []) :
    concatSeg stops = joinSlash stops ++ "/" := by
  induction stops with
  | nil => exact absurd rfl h
  | cons s rest ih =>
    cases rest with
    | nil =>
      show s ++ "/" ++ concatSeg [] = joinSlash [s] ++ "/"
      apply strExt
      simp [concatSeg, joinSlash, strData]
    | cons x rest' =>
      show s ++ "/" ++ concatSeg (x :: rest') = joinSlash (s :: x :: rest') ++ "/"
      rw [ih (by simp)]
      show s ++ "/" ++ (joinSlash (x :: rest') ++ "/") =
        s ++ "/" ++ joinSlash (x :: rest') ++ "/"
      rw [strAssoc (s ++ "/") (joinSlash (x :: rest')) "/"]

theorem rstripSlash_mk (l : List Char) :
    rstripSlash ⟨l⟩ = ⟨(l.reverse.dropWhile (fun c => c = '/')).reverse⟩ := rfl

theorem rstripSlash_append_slash (s : String) :
    rstripSlash (s ++ "/") = rstripSlash s := by
  have h1 : (s ++ "/") = ⟨s.data ++ ['/']⟩ := by
    apply strExt
    rw [strData]
  rw [h1, rstripSlash_mk]
  have h2 : (s.data ++ ['/']).reverse = '/' :: s.data.reverse := by
    rw [List.reverse_append]
    rfl
  rw [h2, List.dropWhile_cons_of_pos (by decide)]
  rfl

theorem rstripSlash_eq_self (s : String) (c : Char) (hl : s.data.getLast? = some c)
    (hc : c ≠ '/') : rstripSlash s = s := by
  apply strExt
  show ((s.data.reverse.dropWhile (fun c => c = '/')).reverse) = s.data
  have h1 : s.data.reverse.head? = some c := by
    rw [List.head?_reverse]
    exact hl
  cases hrev : s.data.reverse with
  | nil => rw [hrev] at h1; cases h1
  | cons x t =>
    rw [hrev] at h1
    injection h1 with h1
    subst h1
    rw [List.dropWhile_cons_of_neg (by simp [hc])]
    rw [← hrev, List.reverse_reverse]

theorem joinSlash_getLast : ∀ (stops : List String) (r : String),
    stops.getLast? = some r → r.data ≠ [] →
    (joinSlash stops).data.getLast? = r.data.getLast? := by
  intro stops
  induction stops with
  | nil => intro r h _; cases h
  | cons s rest ih =>
    intro r h hr
    cases rest with
    | nil =>
      have h' : some s = some r := h
      injection h' with h'
      subst h'
      rfl
    | cons x rest' =>
      have hlast : (x :: rest').getLast? = some r := by
        rw [← List.getLast?_cons_cons]
        exact h
      have hJne : (joinSlash (x :: rest')).data ≠ [] := by
        intro hnil
        have hthis := ih r hlast hr
        rw [hnil] at hthis
        cases hr2 : r.data.getLast? with
        | none => exact hr (List.getLast?_eq_none_iff.mp hr2)
        | some y => rw [hr2] at hthis; cases hthis
      show ((s ++ "/" ++ joinSlash (x :: rest')).data).getLast? = _
      rw [strData, List.getLast?_append_of_ne_nil _ hJne]
      exact ih r hlast hr

theorem getLast?_cons_append_singleton {α : Type} (a : α) (l : List α) (b : α) :
    (a :: (l ++ [b])).getLast? = some b := by
  rw [show a :: (l ++ [b]) = (a :: l) ++ [b] by simp]
  exact List.getLast?_concat _

/-- C8 (amended): for at most 9 destinations, provided the origin's stop
representation is nonempty and does not end in `'/'` (so that the trailing
`rstrip('/')` removes exactly the final separator), the generated URL is
the fixed prefix followed by exactly `destinations.length + 2` stop
segments joined by `'/'`; the segment sequence starts and ends with the
origin's representation, its middle segments are the destinations'
representations in order, and each representation is `"lat,lng"` for a
geocoded address and the `+`-encoded raw address otherwise. -/
theorem mapUrl_segments (geocoded : String → Option GeocodeResult) (origin : String)
    (od : List String)
    (hlen : od.length ≤ 9)
    (hne : (stopRepr geocoded origin).data ≠ [])
    (hsl : (stopRepr geocoded origin).data.getLast? ≠ some '/') :
    generateMapUrl geocoded origin od =
      "https://www.google.com/maps/dir/" ++ joinSlash (mapStops geocoded origin od) ∧
    (mapStops geocoded origin od).length = od.length + 2 ∧
    (mapStops geocoded origin od).head? = some (stopRepr geocoded origin) ∧
    (mapStops geocoded origin od).getLast? = some (stopRepr geocoded origin) ∧
    (∀ i, i < od.length →
      (mapStops geocoded origin od).getD (i + 1) "" = stopRepr geocoded (od.getD i "")) ∧
    (∀ a r, geocoded a = some r → stopRepr geocoded a = r.lat ++ "," ++ r.lng) ∧
    (∀ a, geocoded a = none →
      stopRepr geocoded a = ⟨a.data.map (fun c => if c = ' ' then '+' else c)⟩) := by
  have hstops_ne : mapStops geocoded origin od ≠ [] := by simp [mapStops]
  have hlast : (mapStops geocoded origin od).getLast? = some (stopRepr geocoded origin) :=
    getLast?_cons_append_singleton _ _ _
  obtain ⟨c, hc⟩ : ∃ c, (stopRepr geocoded origin).data.getLast? = some c := by
    cases hx : (stopRepr geocoded origin).data.getLast? with
    | none => exact absurd (List.getLast?_eq_none_iff.mp hx) hne
    | some c => exact ⟨c, rfl⟩
  have hcne : c ≠ '/' := fun hceq => hsl (hceq ▸ hc)
  have hJlast : (joinSlash (mapStops geocoded origin od)).data.getLast? = some c :=
    (joinSlash_getLast _ _ hlast hne).trans hc
  have hJne : (joinSlash (mapStops geocoded origin od)).data ≠ [] := by
    intro hnil
    rw [hnil] at hJlast
    cases hJlast
  have hfull : ("https://www.google.com/maps/dir/" ++
      joinSlash (mapStops geocoded origin od)).data.getLast? = some c := by
    rw [strData, List.getLast?_append_of_ne_nil _ hJne]
    exact hJlast
  refine ⟨?_, ?_, rfl, hlast, ?_, ?_, ?_⟩
  · unfold generateMapUrl
    rw [if_pos hlen, concatSeg_eq_joinSlash _ hstops_ne]
    rw [← strAssoc "https://www.google.com/maps/dir/"
      (joinSlash (mapStops geocoded origin od)) "/"]
    rw [rstripSlash_append_slash]
    exact rstripSlash_eq_self _ c hfull hcne
  · simp [mapStops]
  · intro i hi
    show (mapStops geocoded origin od).getD (i + 1) "" = _
    unfold mapStops
    rw [List.getD_cons_succ]
    rw [List.getD_eq_getElem?_getD, List.getElem?_append,
      if_pos (show i < (od.map (stopRepr geocoded)).length by simpa using hi)]
    rw [List.getElem?_map]
    cases hoi : od[i]? with
    | none =>
      rw [List.getElem?_eq_none_iff] at hoi
      omega
    | some x =>
      have hx : od.getD i "" = x := by
        rw [List.getD_eq_getElem?_getD, hoi]
        rfl
      simp [hoi, hx]
  · intro a r hr
    simp [stopRepr, hr]
  · intro a hr
    simp [stopRepr, hr]

/-- C8 counterexample: with the non-geocoded origin `"/"` and no
destinations, the trailing `rstrip('/')` eats the origin segments
themselves: the URL collapses to the bare prefix, has no stop segments,
and does not end with the origin's stop representation. -/
theorem mapUrl_segments_counterexample :
    stopRepr (fun _ => none) "/" = "/" ∧
    generateMapUrl (fun _ => none) "/" [] = "https://www.google.com/maps/dir" ∧
    generateMapUrl (fun _ => none) "/" [] ≠
      "https://www.google.com/maps/dir/" ++ joinSlash (mapStops (fun _ => none) "/" []) ∧
    (List.isSuffixOf (stopRepr (fun _ => none) "/").data
      (generateMapUrl (fun _ => none) "/" []).data) = false := by decide

theorem mapUrl_segments_witness :
    ((["Bellevue, WA", "Redmond, WA"] : List String).length ≤ 9 ∧
      (stopRepr geocodedAll "Home").data ≠ [] ∧
      (stopRepr geocodedAll "Home").data.getLast? ≠ some '/') ∧
    (generateMapUrl geocodedAll "Home" ["Bellevue, WA", "Redmond, WA"] =
      "https://www.google.com/maps/dir/" ++
        joinSlash (mapStops geocodedAll "Home" ["Bellevue, WA", "Redmond, WA"]) ∧
    (mapStops geocodedAll "Home" ["Bellevue, WA", "Redmond, WA"]).length =
      (["Bellevue, WA", "Redmond, WA"] : List String).length + 2 ∧
    (mapStops geocodedAll "Home" ["Bellevue, WA", "Redmond, WA"]).head? =
      some (stopRepr geocodedAll "Home") ∧
    (mapStops geocodedAll "Home" ["Bellevue, WA", "Redmond, WA"]).getLast? =
      some (stopRepr geocodedAll "Home") ∧
    (∀ i, i < (["Bellevue, WA", "Redmond, WA"] : List String).length →
      (mapStops geocodedAll "Home" ["Bellevue, WA", "Redmond, WA"]).getD (i + 1) "" =
        stopRepr geocodedAll ((["Bellevue, WA", "Redmond, WA"] : List String).getD i "")) ∧
    (∀ a r, geocodedAll a = some r → stopRepr geocodedAll a = r.lat ++ "," ++ r.lng) ∧
    (∀ a, geocodedAll a = none →
      stopRepr geocodedAll a = ⟨a.data.map (fun c => if c = ' ' then '+' else c)⟩)) :=
  ⟨⟨by decide, by decide, by decide⟩,
    mapUrl_segments geocodedAll "Home" ["Bellevue, WA", "Redmond, WA"]
      (by decide) (by decide) (by decide)⟩
